import Mathlib

set_option maxHeartbeats 1000000

/-!
Shallow embedding of surl.py, the store-credential helper: JSON values as
parsed by the json library, the credential directory as a finite map from
path to parsed file content, the authorization-acquisition exchange
(SCA root issuance, caveat selection, SSO discharge with the optional
second factor), the discharge-refresh block of main, legacy-file
migration, credential listing, and credential load/save.
-/

namespace Surl

/-- JSON values as returned by json.load and response.json(): strings,
objects, and a catch-all for scalars and arrays the tool never inspects. -/
inductive Json where
  | str (s : String)
  | obj (fields : List (String × Json))
  | other (tag : String)

/-- Dictionary access a[k] on a parsed JSON value; none models a Python
KeyError on a missing key, or a TypeError when the value is not a dict. -/
def Json.get? : Json → String → Option Json
  | .obj fields, k => (fields.find? (fun f => f.1 == k)).map (fun f => f.2)
  | _, _ => none

/-- File content after an attempted JSON parse: none stands for text that
raises json.decoder.JSONDecodeError, some j for text parsing to j. -/
abbrev FileData := Option Json

/-- The credential directory as a finite map from file path to parsed
content, kept in directory-listing order. -/
abbrev FS := List (String × FileData)

/-- Drop every entry stored under path p. -/
def FS.eraseKey (fs : FS) (p : String) : FS :=
  fs.filter (fun e => !(e.1 == p))

/-- Content stored under path p, if any. -/
def FS.lookup (fs : FS) (p : String) : Option FileData :=
  (fs.find? (fun e => e.1 == p)).map (fun e => e.2)

/-- Writing a file, open(path, "w") followed by a dump, replaces any
previous content at that path. -/
def FS.write (fs : FS) (p : String) (d : FileData) : FS :=
  (p, d) :: FS.eraseKey fs p

/-- os.path.exists on the embedded file system. -/
def FS.pathExists (fs : FS) (p : String) : Bool :=
  (FS.lookup fs p).isSome

/-- os.rename src dst: moves the content at src to dst, silently replacing
any content at dst; surl.py only calls it after an existence check. -/
def FS.rename (fs : FS) (src dst : String) : FS :=
  match FS.lookup fs src with
  | some d => FS.write (FS.eraseKey fs src) dst d
  | none => fs

/-- Endpoint triple of one store environment, one row of CONSTANTS. -/
structure Env where
  sso_location : String
  sso_base_url : String
  sca_base_url : String

/-- The three admissible values of the store argument; localEnv renders
the Python key named local, which is a reserved word here. -/
inductive StoreEnv where
  | localEnv
  | staging
  | production

/-- Process environment variables read when CONSTANTS is built. -/
structure EnvOverrides where
  surl_sso_location : Option String
  surl_sso_base_url : Option String
  surl_sca_base_url : Option String
  surl_sca_root_url : Option String

/-- The CONSTANTS table of surl.py: endpoint triples per environment, with
the overridable entries falling back to fixed defaults when unset. -/
def CONSTANTS (ev : EnvOverrides) : StoreEnv → Env
  | .localEnv =>
      { sso_location := ev.surl_sso_location.getD "login.staging.ubuntu.com",
        sso_base_url := ev.surl_sso_base_url.getD "https://login.staging.ubuntu.com",
        sca_base_url := ev.surl_sca_base_url.getD "http://0.0.0.0:8000" }
  | .staging =>
      { sso_location := "login.staging.ubuntu.com",
        sso_base_url := "https://login.staging.ubuntu.com",
        sca_base_url := ev.surl_sca_root_url.getD "https://dashboard.staging.snapcraft.io" }
  | .production =>
      { sso_location := "login.ubuntu.com",
        sso_base_url := "https://login.ubuntu.com",
        sca_base_url := "https://dashboard.snapcraft.io" }

/-- The conf dict written by main: a JSON object with keys root, discharge
and store, in that order. -/
def credJson (root discharge store : Json) : Json :=
  .obj [("root", root), ("discharge", discharge), ("store", store)]

/-- json.dump of the conf dict into the file opened for writing at path. -/
def saveCredential (fs : FS) (path : String) (root discharge store : Json) : FS :=
  FS.write fs path (some (credJson root discharge store))

/-- First line printed by main for an unparsable credential file. -/
def brokenFileMsg : String :=
  "** Deprecated or Broken authentication file, please delete it and login again:"

/-- Outcome of the credential-reading block of main. -/
inductive LoadOutcome where
  | ok (root discharge store : Json)
  | corrupt (printed : List String) (exitCode : Nat)
  | crash (reason : String)

/-- The credential-reading block of main: open the file at path, parse it,
report an unparsable file with a remediation hint and exit code 1, and
otherwise take the root, discharge and store entries; a parsable file that
lacks one of them raises an uncaught KeyError. The block never writes or
removes files, so the file system is returned unchanged. -/
def loadCredential (fs : FS) (path : String) : FS × LoadOutcome :=
  match FS.lookup fs path with
  | some none =>
      (fs, .corrupt [brokenFileMsg, "  $ rm " ++ path] 1)
  | some (some j) =>
      match j.get? "root", j.get? "discharge", j.get? "store" with
      | some r, some d, some s => (fs, .ok r d s)
      | _, _, _ => (fs, .crash "KeyError")
  | none => (fs, .crash "FileNotFoundError")

/-- One third-party caveat of a deserialized macaroon, as enumerated by
the pymacaroons library. -/
structure Caveat where
  location : String
  caveat_id : String

/-- One SSO response: HTTP status code and parsed JSON body. -/
structure SsoResponse where
  status_code : Nat
  body : Json

/-- Inputs to one run of get_store_authorization: the parsed body of the
SCA issuance response, the caveat enumeration of the macaroon library, the
two interactive answers, and the parsed SSO discharge responses in the
order they would arrive. -/
structure AcqInputs where
  scaBody : Json
  caveatsOf : String → List Caveat
  password : String
  firstDischarge : SsoResponse
  otp : String
  secondDischarge : SsoResponse

/-- Observable side effects of get_store_authorization, in order: the SCA
issuance call, the getpass prompt, each SSO discharge call with the otp
field it carries, and the second-factor prompt on stderr. -/
inductive Effect where
  | scaRequest
  | passwordPrompt
  | dischargeRequest (caveat_id : String) (otp : Option String)
  | otpPrompt
deriving DecidableEq, Repr

/-- Exceptions get_store_authorization can raise: a KeyError for a missing
response field, a deserialize failure on a non-string token, and the
ValueError of the single-element unpacking of the caveat list. -/
inductive AcqError where
  | missingField (field : String)
  | badToken
  | caveatMismatch (found : Nat)
deriving DecidableEq, Repr

/-- The caveat filter of get_store_authorization: third-party caveats of
the root whose location is the sso_location of the environment. -/
def matchingCaveats (inp : AcqInputs) (env : Env) (root : String) : List Caveat :=
  (inp.caveatsOf root).filter (fun c => c.location == env.sso_location)

/-- The second-factor test of get_store_authorization: status 401 and the
code field of the body equal to TWOFACTOR_REQUIRED. -/
def isTwoFactorRequired (resp : SsoResponse) : Bool :=
  resp.status_code == 401 &&
    (match resp.body.get? "code" with
     | some (.str c) => c == "TWOFACTOR_REQUIRED"
     | _ => false)

/-- get_store_authorization of surl.py: request the SCA root, take its
macaroon field, select the single caveat located at the SSO of the target
environment, prompt for the password, request the SSO discharge without an
otp field, on a 401 TWOFACTOR_REQUIRED answer prompt once for the second
factor and resend with otp set, and take the discharge_macaroon field of
the final response. The trace lists the effects performed before the run
returned or raised. -/
def get_store_authorization (inp : AcqInputs) (env : Env) :
    List Effect × Except AcqError (String × Json) :=
  match inp.scaBody.get? "macaroon" with
  | none => ([.scaRequest], .error (.missingField "macaroon"))
  | some (.str root) =>
      match matchingCaveats inp env root with
      | [caveat] =>
          match isTwoFactorRequired inp.firstDischarge with
          | true =>
              match inp.secondDischarge.body.get? "discharge_macaroon" with
              | some d =>
                  ([.scaRequest, .passwordPrompt, .dischargeRequest caveat.caveat_id none,
                    .otpPrompt, .dischargeRequest caveat.caveat_id (some inp.otp)],
                   .ok (root, d))
              | none =>
                  ([.scaRequest, .passwordPrompt, .dischargeRequest caveat.caveat_id none,
                    .otpPrompt, .dischargeRequest caveat.caveat_id (some inp.otp)],
                   .error (.missingField "discharge_macaroon"))
          | false =>
              match inp.firstDischarge.body.get? "discharge_macaroon" with
              | some d =>
                  ([.scaRequest, .passwordPrompt, .dischargeRequest caveat.caveat_id none],
                   .ok (root, d))
              | none =>
                  ([.scaRequest, .passwordPrompt, .dischargeRequest caveat.caveat_id none],
                   .error (.missingField "discharge_macaroon"))
      | cs => ([.scaRequest], .error (.caveatMismatch cs.length))
  | some _ => ([.scaRequest], .error .badToken)

/-- Message printed by main for any exception escaping the acquisition. -/
def authFailedMsg : String := "Authorization failed! Double-check password and 2FA."

/-- The acquisition branch of main: run get_store_authorization, turn any
exception into the generic failure message with exit code 1, and on
success persist the credential when an identifier path was given. -/
def mainAcquire (inp : AcqInputs) (env : Env) (store_env : String)
    (authPath : Option String) (fs : FS) :
    FS × Except (List String × Nat) (String × Json) :=
  match (get_store_authorization inp env).2 with
  | .error _ => (fs, .error ([authFailedMsg], 1))
  | .ok (root, discharge) =>
      match authPath with
      | some p =>
          (saveCredential fs p (.str root) discharge (.str store_env),
           .ok (root, discharge))
      | none => (fs, .ok (root, discharge))

/-- One response of the resource server: headers and raw body text. -/
structure ResourceResponse where
  headers : List (String × String)
  body : String

/-- headers.get(k) over a response header list. -/
def headerValue (headers : List (String × String)) (k : String) : Option String :=
  (headers.find? (fun e => e.1 == k)).map (fun e => e.2)

/-- The stale-discharge challenge test of main: the WWW-Authenticate
header equal to the fixed sentinel. -/
def needsRefresh (resp : ResourceResponse) : Bool :=
  headerValue resp.headers "WWW-Authenticate" == some "Macaroon needs_refresh=1"

/-- get_refreshed_discharge of surl.py reduced to its data path: the
discharge_macaroon field of the parsed refresh response; none models the
KeyError raised when the field is absent. -/
def get_refreshed_discharge (refreshBody : Json) : Option Json :=
  refreshBody.get? "discharge_macaroon"

/-- Network effects of the refresh block, in order: the SSO refresh call
carrying the current discharge, and the single retry of the original
request. -/
inductive RefreshEffect where
  | refreshCall (oldDischarge : String)
  | retryRequest
deriving DecidableEq, Repr

/-- Final state of the tail of main: the directory, the refresh effects
performed, the in-memory credential variables, and either the response
body written to stdout with the return code, or an uncaught exception. -/
inductive HandleResult where
  | done (fs : FS) (effects : List RefreshEffect) (root discharge store_env : String)
      (body : String) (exitCode : Nat)
  | crash (fs : FS) (effects : List RefreshEffect) (reason : String)

/-- The tail of main from the first resource response on: when the
response carries the stale-discharge challenge, call the SSO refresh
endpoint, open the credential path for writing (a TypeError when no
identifier was given and the path is None), dump the updated conf, rebind
the header (deserialize fails on a non-string token) and retry the
original request once; the body of whichever response is current is then
written out with return code 0, with no further challenge check. -/
def handleResponse (resp retried : ResourceResponse) (refreshBody : Json)
    (root discharge store_env : String) (authPath : Option String) (fs : FS) :
    HandleResult :=
  match needsRefresh resp with
  | true =>
      match get_refreshed_discharge refreshBody with
      | none => .crash fs [.refreshCall discharge] "KeyError: discharge_macaroon"
      | some v =>
          match authPath with
          | none => .crash fs [.refreshCall discharge] "TypeError: open expected str, not None"
          | some p =>
              let fsSaved := saveCredential fs p (.str root) v (.str store_env)
              match v with
              | .str newDischarge =>
                  .done fsSaved [.refreshCall discharge, .retryRequest]
                    root newDischarge store_env retried.body 0
              | _ => .crash fsSaved [.refreshCall discharge] "macaroon deserialize failed"
  | false => .done fs [] root discharge store_env resp.body 0

/-- Suffixed credential path of an identifier under the auth dir. -/
def authPathOf (authDir ident : String) : String := authDir ++ "/" ++ ident ++ ".surl"

/-- Pre-suffix legacy path of an identifier under the auth dir. -/
def legacyPathOf (authDir ident : String) : String := authDir ++ "/" ++ ident

/-- The legacy-migration block of main: when a file exists at the legacy
path, rename it to the suffixed path. -/
def migrateLegacy (fs : FS) (authDir ident : String) : FS :=
  if FS.pathExists fs (legacyPathOf authDir ident) then
    FS.rename fs (legacyPathOf authDir ident) (authPathOf authDir ident)
  else fs

/-- Bool test that pat occurs at the start of s, on character lists. -/
def charsLeadWith : List Char → List Char → Bool
  | [], _ => true
  | _ :: _, [] => false
  | p :: ps, c :: cs => p == c && charsLeadWith ps cs

/-- str.endswith of Python, on the underlying character lists. -/
def strEndsWith (s pat : String) : Bool :=
  charsLeadWith pat.data.reverse s.data.reverse

/-- Fuel-indexed scan of str.replace over character lists, substituting
every occurrence of pat by rep from left to right. -/
def replaceChars : Nat → List Char → List Char → List Char → List Char
  | 0, s, _, _ => s
  | _ + 1, [], _, _ => []
  | fuel + 1, c :: rest, pat, rep =>
      if charsLeadWith pat (c :: rest) then
        rep ++ replaceChars fuel (List.drop pat.length (c :: rest)) pat rep
      else c :: replaceChars fuel rest pat rep

/-- str.replace of Python (all occurrences), as used by the listing to
strip the .surl suffix from a file name. -/
def strReplace (s pat rep : String) : String :=
  ⟨replaceChars s.data.length s.data pat.data rep.data⟩

/-- The list-auth block of main over the directory listing: for every
file name carrying the .surl suffix, parse it, skip it when the parse
raises JSONDecodeError, and otherwise print the identifier with its store
field; a parsed file without a store field raises an uncaught KeyError.
The result pairs the entries printed before termination with the name of
the file at which the block crashed, if any. -/
def listAuth : FS → List (String × Json) × Option String
  | [] => ([], none)
  | (fn, content) :: rest =>
      if strEndsWith fn ".surl" then
        match content with
        | none => listAuth rest
        | some j =>
            match j.get? "store" with
            | none => ([], some fn)
            | some env =>
                ((strReplace fn ".surl" "", env) :: (listAuth rest).1, (listAuth rest).2)
      else listAuth rest

/-- Entry the listing prints for one directory entry when it does not
crash on it. -/
def listedEntry (e : String × FileData) : Option (String × Json) :=
  if strEndsWith e.1 ".surl" then
    match e.2 with
    | none => none
    | some j => (j.get? "store").map (fun env => (strReplace e.1 ".surl" "", env))
  else none

/-- Bool precondition of a crash-free listing: every suffixed file that
parses as JSON carries a store field. -/
def noStorelessFile (fs : FS) : Bool :=
  fs.all (fun e =>
    !(strEndsWith e.1 ".surl") ||
      (match e.2 with
       | none => true
       | some j => (j.get? "store").isSome))

/-- CONSTANTS row of the staging environment with no overrides set. -/
def envStaging : Env := CONSTANTS ⟨none, none, none, none⟩ .staging

/-- Concrete acquisition inputs whose SCA response body lacks the macaroon
field. -/
def noMacaroonInputs : AcqInputs :=
  { scaBody := .obj [("detail", .str "oops")],
    caveatsOf := fun _ => [⟨"login.staging.ubuntu.com", "cid-1"⟩],
    password := "pw",
    firstDischarge := ⟨200, .obj [("discharge_macaroon", .str "D1")]⟩,
    otp := "123456",
    secondDischarge := ⟨200, .obj [("discharge_macaroon", .str "D2")]⟩ }

/-- Concrete acquisition inputs for a plain bad-password failure: the SSO
discharge answers 401 without the two-factor code. -/
def badPasswordInputs : AcqInputs :=
  { scaBody := .obj [("macaroon", .str "R1")],
    caveatsOf := fun _ => [⟨"login.staging.ubuntu.com", "cid-1"⟩],
    password := "wrong",
    firstDischarge := ⟨401, .obj [("code", .str "INVALID_CREDENTIALS")]⟩,
    otp := "",
    secondDischarge := ⟨401, .obj [("code", .str "INVALID_CREDENTIALS")]⟩ }

/-- Concrete acquisition inputs whose root carries no matching caveat. -/
def zeroCaveatInputs : AcqInputs :=
  { scaBody := .obj [("macaroon", .str "R1")],
    caveatsOf := fun _ => [],
    password := "pw",
    firstDischarge := ⟨200, .obj [("discharge_macaroon", .str "D1")]⟩,
    otp := "123456",
    secondDischarge := ⟨200, .obj [("discharge_macaroon", .str "D2")]⟩ }

/-- Concrete acquisition inputs for the two-factor path: the first SSO
answer is 401 TWOFACTOR_REQUIRED, the second carries the discharge. -/
def twoFactorInputs : AcqInputs :=
  { scaBody := .obj [("macaroon", .str "R1")],
    caveatsOf := fun _ => [⟨"login.staging.ubuntu.com", "cid-1"⟩],
    password := "pw",
    firstDischarge := ⟨401, .obj [("code", .str "TWOFACTOR_REQUIRED")]⟩,
    otp := "123456",
    secondDischarge := ⟨200, .obj [("discharge_macaroon", .str "D2")]⟩ }

/-- Concrete resource response carrying the stale-discharge challenge. -/
def staleResponse : ResourceResponse :=
  ⟨[("WWW-Authenticate", "Macaroon needs_refresh=1")], "stale body"⟩

/-- Concrete resource response without the challenge. -/
def freshResponse : ResourceResponse := ⟨[], "fresh body"⟩

/-- Concrete refresh response carrying a new discharge token D3. -/
def refreshedBody : Json := .obj [("discharge_macaroon", .str "D3")]

/-- Concrete directory holding a legacy file and a suffixed file for the
same identifier, with different contents. -/
def bothPathsFs : FS :=
  [("d/i", some (.str "legacy content")), ("d/i.surl", some (.str "current content"))]

/-- Concrete directory holding only a legacy file for the identifier. -/
def legacyOnlyFs : FS := [("d/i", some (.str "legacy content"))]

/-- Concrete directory with one listable credential and one valid-JSON
file that lacks the store field. -/
def mixedDir : FS :=
  [("good.surl", some (.obj [("store", .str "staging")])),
   ("bad.surl", some (.obj [("detail", .str "x")]))]

/-- Concrete directory with one listable credential, one unparsable file
and one file without the suffix. -/
def skipDir : FS :=
  [("good.surl", some (.obj [("store", .str "staging")])),
   ("broken.surl", none),
   ("readme.txt", some (.obj [("detail", .str "x")]))]

theorem lookup_write_self (fs : FS) (p : String) (d : FileData) :
    FS.lookup (FS.write fs p d) p = some d := by
  simp [FS.write, FS.lookup, List.find?]

theorem lookup_eraseKey_self (fs : FS) (p : String) :
    FS.lookup (FS.eraseKey fs p) p = none := by
  induction fs with
  | nil => rfl
  | cons e rest ih =>
      by_cases h : e.1 == p
      · simpa [FS.eraseKey, List.filter, h] using ih
      · simp only [FS.eraseKey, List.filter, h, Bool.not_false, FS.lookup, List.find?]
        simp [FS.eraseKey, FS.lookup, h] at ih ⊢


theorem lookup_eraseKey_ne (fs : FS) (p q : String) (h : q ≠ p) :
    FS.lookup (FS.eraseKey fs p) q = FS.lookup fs q := by
  induction fs with
  | nil => rfl
  | cons e rest ih =>
      by_cases he : e.1 == p
      · have hne : ¬ (e.1 == q) = true := fun hq =>
          h ((beq_iff_eq.mp hq).symm.trans (beq_iff_eq.mp he))
        simp only [FS.eraseKey, List.filter, he] at *
        simpa [FS.lookup, List.find?, hne] using ih
      · by_cases hq : e.1 == q
        · simp [FS.eraseKey, List.filter, he, FS.lookup, List.find?, hq]
        · simp only [FS.eraseKey, List.filter, he] at *
          simpa [FS.lookup, List.find?, hq] using ih

theorem lookup_write_ne (fs : FS) (p q : String) (d : FileData) (h : q ≠ p) :
    FS.lookup (FS.write fs p d) q = FS.lookup fs q := by
  have hpq : (p == q) = false := beq_eq_false_iff_ne.mpr (Ne.symm h)
  simp only [FS.write, FS.lookup, List.find?, hpq]
  exact lookup_eraseKey_ne fs p q h

theorem get_credJson_root (r d s : Json) : (credJson r d s).get? "root" = some r := rfl

theorem get_credJson_discharge (r d s : Json) :
    (credJson r d s).get? "discharge" = some d := rfl

theorem get_credJson_store (r d s : Json) : (credJson r d s).get? "store" = some s := rfl

theorem ne_append_surl (s : String) : s ≠ s ++ ".surl" := by
  intro h
  have hlen := congrArg String.length h
  rw [String.length_append] at hlen
  have h5 : (".surl" : String).length = 5 := rfl
  omega

/-- C9: saving a credential under an identifier as a JSON object with keys
root, discharge and store, then loading that identifier, yields exactly the
saved credential in all fields; the save replaces any file previously
stored at that path, whatever the prior state of the directory was. -/
theorem save_load_round_trip (fs : FS) (path : String) (r d s : Json) :
    loadCredential (saveCredential fs path r d s) path =
      (saveCredential fs path r d s, .ok r d s) ∧
    FS.lookup (saveCredential fs path r d s) path = some (some (credJson r d s)) := by
  have hl : FS.lookup (saveCredential fs path r d s) path
      = some (some (credJson r d s)) := lookup_write_self ..
  refine ⟨?_, hl⟩
  simp [loadCredential, hl, get_credJson_root, get_credJson_discharge, get_credJson_store]

/-- C7: when the stored file at path exists but its text fails to parse as
JSON, the load block reports the distinguished broken-file message together
with the explicit remediation line naming rm on that path, exits with
code 1 rather than crashing, and leaves the file in place untouched. -/
theorem load_corrupt_distinguished (fs : FS) (path : String)
    (h : FS.lookup fs path = some none) :
    loadCredential fs path = (fs, .corrupt [brokenFileMsg, "  $ rm " ++ path] 1) ∧
    FS.lookup (loadCredential fs path).1 path = some none := by
  constructor
  · simp [loadCredential, h]
  · simp [loadCredential, h]

theorem load_corrupt_distinguished_witness :
    FS.lookup [("here/cred.surl", none)] "here/cred.surl" = some none ∧
    loadCredential [("here/cred.surl", (none : FileData))] "here/cred.surl" =
      ([("here/cred.surl", none)],
        .corrupt [brokenFileMsg, "  $ rm here/cred.surl"] 1) ∧
    FS.lookup (loadCredential [("here/cred.surl", (none : FileData))] "here/cred.surl").1
      "here/cred.surl" = some none := by
  refine ⟨rfl, ?_, ?_⟩
  · exact (load_corrupt_distinguished [("here/cred.surl", none)] "here/cred.surl" rfl).1
  · exact (load_corrupt_distinguished [("here/cred.surl", none)] "here/cred.surl" rfl).2

/-- C1: with the macaroon field of the SCA response present, caveat
selection succeeds exactly when the root carries exactly one third-party
caveat located at the sso_location of the target environment: with one
match the run goes on to the password prompt and the SSO discharge
request, and with zero or several matches it stops right after the single
SCA call with the unpacking error, performing no password prompt and no
SSO discharge request. -/
theorem caveat_selection_unique (inp : AcqInputs) (env : Env) (root : String)
    (hroot : inp.scaBody.get? "macaroon" = some (.str root)) :
    ((matchingCaveats inp env root).length ≠ 1 →
      get_store_authorization inp env =
        ([.scaRequest], .error (.caveatMismatch (matchingCaveats inp env root).length))) ∧
    ((matchingCaveats inp env root).length = 1 →
      ∃ c t, matchingCaveats inp env root = [c] ∧
        (get_store_authorization inp env).1 =
          .scaRequest :: .passwordPrompt :: .dischargeRequest c.caveat_id none :: t) := by
  constructor
  · intro hne
    rcases hm : matchingCaveats inp env root with _ | ⟨c, _ | ⟨c2, cs⟩⟩
    · simp [get_store_authorization, hroot, hm]
    · exact absurd (by rw [hm]; rfl) hne
    · simp [get_store_authorization, hroot, hm]
  · intro h1
    obtain ⟨c, hm⟩ := List.length_eq_one.mp h1
    cases h2 : isTwoFactorRequired inp.firstDischarge
    · cases h3 : inp.firstDischarge.body.get? "discharge_macaroon" <;>
        exact ⟨c, [], hm, by simp [get_store_authorization, hroot, hm, h2, h3]⟩
    · cases h3 : inp.secondDischarge.body.get? "discharge_macaroon" <;>
        exact ⟨c, [.otpPrompt, .dischargeRequest c.caveat_id (some inp.otp)], hm,
          by simp [get_store_authorization, hroot, hm, h2, h3]⟩

theorem caveat_selection_unique_witness :
    zeroCaveatInputs.scaBody.get? "macaroon" = some (.str "R1") ∧
    (matchingCaveats zeroCaveatInputs envStaging "R1").length = 0 ∧
    get_store_authorization zeroCaveatInputs envStaging =
      ([.scaRequest], .error (.caveatMismatch 0)) := by
  refine ⟨rfl, rfl, ?_⟩
  exact (caveat_selection_unique zeroCaveatInputs envStaging "R1" rfl).1 (by decide)

/-- C2: when the first SSO discharge response is a 401 whose body code is
TWOFACTOR_REQUIRED, the run prompts once for the second factor and makes
exactly two discharge calls, the first without an otp field and the second
with otp set to the prompted value, and the returned discharge is the
discharge_macaroon field of the second response; no further discharge call
occurs. -/
theorem twofactor_single_retry (inp : AcqInputs) (env : Env) (root : String) (c : Caveat)
    (hroot : inp.scaBody.get? "macaroon" = some (.str root))
    (hcav : matchingCaveats inp env root = [c])
    (h2fa : isTwoFactorRequired inp.firstDischarge = true) :
    (get_store_authorization inp env).1 =
      [.scaRequest, .passwordPrompt, .dischargeRequest c.caveat_id none,
       .otpPrompt, .dischargeRequest c.caveat_id (some inp.otp)] ∧
    (∀ d, inp.secondDischarge.body.get? "discharge_macaroon" = some d →
      (get_store_authorization inp env).2 = .ok (root, d)) := by
  constructor
  · cases h3 : inp.secondDischarge.body.get? "discharge_macaroon" <;>
      simp [get_store_authorization, hroot, hcav, h2fa, h3]
  · intro d hd
    simp [get_store_authorization, hroot, hcav, h2fa, hd]

theorem twofactor_single_retry_witness :
    isTwoFactorRequired twoFactorInputs.firstDischarge = true ∧
    (get_store_authorization twoFactorInputs envStaging).1 =
      [.scaRequest, .passwordPrompt, .dischargeRequest "cid-1" none,
       .otpPrompt, .dischargeRequest "cid-1" (some "123456")] ∧
    (get_store_authorization twoFactorInputs envStaging).2 = .ok ("R1", .str "D2") := by
  have h := twofactor_single_retry twoFactorInputs envStaging "R1"
    ⟨"login.staging.ubuntu.com", "cid-1"⟩ rfl rfl rfl
  exact ⟨rfl, h.1, h.2 (.str "D2") rfl⟩

/-- C6 counterexample: with the macaroon field absent from the SCA
response, main prints exactly the same generic authentication-failure
report with the same exit code as a plain bad-password failure, so the
missing-field condition is not surfaced verbatim nor distinctly. -/
theorem missing_macaroon_reported_generically :
    mainAcquire noMacaroonInputs envStaging "staging" none [] =
      ([], .error ([authFailedMsg], 1)) ∧
    mainAcquire badPasswordInputs envStaging "staging" none [] =
      ([], .error ([authFailedMsg], 1)) :=
  ⟨rfl, rfl⟩

/-- C6 amended: a SCA response without the macaroon field makes the
acquisition raise the missing-field error right after the single SCA call,
but main catches every acquisition exception and reports the one generic
authentication-failure message with exit code 1, indistinguishable from a
bad-credential failure. -/
theorem missing_macaroon_generic_report (inp : AcqInputs) (env : Env) (store_env : String)
    (authPath : Option String) (fs : FS)
    (h : inp.scaBody.get? "macaroon" = none) :
    get_store_authorization inp env = ([.scaRequest], .error (.missingField "macaroon")) ∧
    mainAcquire inp env store_env authPath fs = (fs, .error ([authFailedMsg], 1)) := by
  have h1 : get_store_authorization inp env
      = ([.scaRequest], .error (.missingField "macaroon")) := by
    simp [get_store_authorization, h]
  exact ⟨h1, by simp [mainAcquire, h1]⟩

theorem missing_macaroon_generic_report_witness :
    noMacaroonInputs.scaBody.get? "macaroon" = none ∧
    get_store_authorization noMacaroonInputs envStaging =
      ([.scaRequest], .error (.missingField "macaroon")) ∧
    mainAcquire noMacaroonInputs envStaging "staging" (some "d/i.surl") [] =
      ([], .error ([authFailedMsg], 1)) := by
  have h := missing_macaroon_generic_report noMacaroonInputs envStaging "staging"
    (some "d/i.surl") [] rfl
  exact ⟨rfl, h.1, h.2⟩

/-- C3: when the first response carries the stale-discharge challenge and
the refresh endpoint returns a string discharge token, the refresh block
keeps the in-memory root and store unchanged, persists a conf whose root
and store fields equal the original ones while the discharge field holds
the refreshed token, and when the refreshed token differs from the
original discharge the persisted discharge field differs as well. -/
theorem refresh_updates_only_discharge (resp retried : ResourceResponse) (refreshBody : Json)
    (root discharge store_env p newD : String) (fs : FS)
    (h1 : needsRefresh resp = true)
    (h2 : get_refreshed_discharge refreshBody = some (.str newD)) :
    handleResponse resp retried refreshBody root discharge store_env (some p) fs =
      .done (saveCredential fs p (.str root) (.str newD) (.str store_env))
        [.refreshCall discharge, .retryRequest] root newD store_env retried.body 0 ∧
    FS.lookup (saveCredential fs p (.str root) (.str newD) (.str store_env)) p =
      some (some (credJson (.str root) (.str newD) (.str store_env))) ∧
    (newD ≠ discharge →
      (credJson (.str root) (.str newD) (.str store_env)).get? "discharge" ≠
        some (.str discharge)) := by
  refine ⟨?_, lookup_write_self .., ?_⟩
  · simp [handleResponse, h1, h2]
  · intro hne heq
    rw [get_credJson_discharge] at heq
    injection heq with h3
    injection h3 with h4
    exact hne h4

theorem refresh_updates_only_discharge_witness :
    needsRefresh staleResponse = true ∧
    get_refreshed_discharge refreshedBody = some (.str "D3") ∧
    ("D3" : String) ≠ "D1" ∧
    handleResponse staleResponse freshResponse refreshedBody "R1" "D1" "staging"
        (some "d/i.surl") [] =
      .done (saveCredential [] "d/i.surl" (.str "R1") (.str "D3") (.str "staging"))
        [.refreshCall "D1", .retryRequest] "R1" "D3" "staging" "fresh body" 0 ∧
    (credJson (.str "R1") (.str "D3") (.str "staging")).get? "discharge" ≠
      some (.str "D1") := by
  have h := refresh_updates_only_discharge staleResponse freshResponse refreshedBody
    "R1" "D1" "staging" "d/i.surl" "D3" [] rfl rfl
  exact ⟨rfl, rfl, by decide, h.1, h.2.2 (by decide)⟩

/-- C4 counterexample: with the stale-discharge challenge on both the
first and the retried response, the tail of main still ends as a normal
run: one refresh call, one retry, the retried body written out, and return
code 0; no error is raised for the second challenge. -/
theorem second_challenge_passed_through :
    needsRefresh staleResponse = true ∧
    handleResponse staleResponse staleResponse refreshedBody "R1" "D1" "staging"
        (some "d/i.surl") [] =
      .done (saveCredential [] "d/i.surl" (.str "R1") (.str "D3") (.str "staging"))
        [.refreshCall "D1", .retryRequest] "R1" "D3" "staging" "stale body" 0 :=
  ⟨rfl, rfl⟩

/-- C4 amended: after one refresh and the single retry, a stale-discharge
challenge on the retried response is not honored with another refresh: the
effect list holds exactly one refresh call and one retry, and the retried
response body is written out as a normal result with return code 0 rather
than triggering a loop or being surfaced as an error. -/
theorem second_challenge_not_honored (resp retried : ResourceResponse) (refreshBody : Json)
    (root discharge store_env p newD : String) (fs : FS)
    (h1 : needsRefresh resp = true)
    (h2 : get_refreshed_discharge refreshBody = some (.str newD))
    (_h3 : needsRefresh retried = true) :
    handleResponse resp retried refreshBody root discharge store_env (some p) fs =
      .done (saveCredential fs p (.str root) (.str newD) (.str store_env))
        [.refreshCall discharge, .retryRequest] root newD store_env retried.body 0 := by
  simp [handleResponse, h1, h2]

theorem second_challenge_not_honored_witness :
    needsRefresh staleResponse = true ∧
    get_refreshed_discharge refreshedBody = some (.str "D3") ∧
    handleResponse staleResponse staleResponse refreshedBody "R2" "D1" "staging"
        (some "d/j.surl") [] =
      .done (saveCredential [] "d/j.surl" (.str "R2") (.str "D3") (.str "staging"))
        [.refreshCall "D1", .retryRequest] "R2" "D3" "staging" "stale body" 0 :=
  ⟨rfl, rfl, second_challenge_not_honored staleResponse staleResponse refreshedBody
    "R2" "D1" "staging" "d/j.surl" "D3" [] rfl rfl rfl⟩

/-- C10: when no authorization identifier was given, so the credential
path is None, and the response carries the stale-discharge challenge, the
refresh block calls the refresh endpoint and then crashes with an uncaught
TypeError on opening the None path, performing no retry and writing no
file. -/
theorem refresh_without_identifier_crashes (resp retried : ResourceResponse)
    (refreshBody : Json) (root discharge store_env : String) (fs : FS) (v : Json)
    (h1 : needsRefresh resp = true)
    (h2 : get_refreshed_discharge refreshBody = some v) :
    handleResponse resp retried refreshBody root discharge store_env none fs =
      .crash fs [.refreshCall discharge] "TypeError: open expected str, not None" := by
  simp [handleResponse, h1, h2]

theorem refresh_without_identifier_crashes_witness :
    needsRefresh staleResponse = true ∧
    get_refreshed_discharge refreshedBody = some (.str "D3") ∧
    handleResponse staleResponse freshResponse refreshedBody "R1" "D1" "staging" none [] =
      .crash [] [.refreshCall "D1"] "TypeError: open expected str, not None" :=
  ⟨rfl, rfl, refresh_without_identifier_crashes staleResponse freshResponse refreshedBody
    "R1" "D1" "staging" [] (.str "D3") rfl rfl⟩

/-- C5 counterexample: with files at both the legacy and the suffixed
path, the migration still renames: afterwards the legacy file is gone and
the suffixed path holds the legacy content, although the claim would have
left the directory unchanged in this state. -/
theorem migrate_renames_over_existing :
    FS.pathExists bothPathsFs (legacyPathOf "d" "i") = true ∧
    FS.pathExists bothPathsFs (authPathOf "d" "i") = true ∧
    FS.pathExists (migrateLegacy bothPathsFs "d" "i") (legacyPathOf "d" "i") = false ∧
    FS.lookup (migrateLegacy bothPathsFs "d" "i") (authPathOf "d" "i") =
      some (some (.str "legacy content")) :=
  ⟨rfl, rfl, rfl, rfl⟩

/-- C5 amended: the migration renames whenever a file exists at the
pre-suffix path, regardless of the suffixed path, silently replacing any
file there; with no legacy file it does nothing; and it is idempotent,
because the rename removes the legacy path. -/
theorem migrate_legacy_behavior (fs : FS) (authDir ident : String) :
    (FS.pathExists fs (legacyPathOf authDir ident) = true →
      migrateLegacy fs authDir ident =
        FS.rename fs (legacyPathOf authDir ident) (authPathOf authDir ident)) ∧
    (FS.pathExists fs (legacyPathOf authDir ident) = false →
      migrateLegacy fs authDir ident = fs) ∧
    migrateLegacy (migrateLegacy fs authDir ident) authDir ident =
      migrateLegacy fs authDir ident := by
  have hne : legacyPathOf authDir ident ≠ authPathOf authDir ident :=
    ne_append_surl _
  have hskip : ∀ gs : FS, FS.pathExists gs (legacyPathOf authDir ident) = false →
      migrateLegacy gs authDir ident = gs := fun gs hg => by
    simp [migrateLegacy, hg]
  refine ⟨fun h => by simp [migrateLegacy, h], hskip fs, ?_⟩
  by_cases h : FS.pathExists fs (legacyPathOf authDir ident) = true
  · have hgone : FS.pathExists (migrateLegacy fs authDir ident)
        (legacyPathOf authDir ident) = false := by
      rcases hl : FS.lookup fs (legacyPathOf authDir ident) with _ | d
      · simp [FS.pathExists, hl] at h
      · have hnone : FS.lookup (FS.write (FS.eraseKey fs (legacyPathOf authDir ident))
            (authPathOf authDir ident) d) (legacyPathOf authDir ident) = none := by
          rw [lookup_write_ne _ _ _ _ hne, lookup_eraseKey_self]
        simp [migrateLegacy, h, FS.rename, hl, FS.pathExists, hnone]
    exact hskip _ hgone
  · have hf : FS.pathExists fs (legacyPathOf authDir ident) = false := by
      simpa using h
    rw [hskip fs hf, hskip fs hf]

theorem migrate_legacy_behavior_witness :
    FS.pathExists legacyOnlyFs (legacyPathOf "d" "i") = true ∧
    migrateLegacy legacyOnlyFs "d" "i" =
      FS.rename legacyOnlyFs (legacyPathOf "d" "i") (authPathOf "d" "i") ∧
    migrateLegacy (migrateLegacy legacyOnlyFs "d" "i") "d" "i" =
      migrateLegacy legacyOnlyFs "d" "i" := by
  have h := migrate_legacy_behavior legacyOnlyFs "d" "i"
  exact ⟨rfl, h.1 rfl, h.2.2⟩

/-- C8 counterexample: a directory with one listable credential file and
one file that parses as JSON but lacks the store field does not skip the
latter: the listing aborts with an uncaught KeyError at that file, so the
enumeration fails as a whole instead of yielding only the valid entry. -/
theorem listing_crashes_on_missing_store :
    (listAuth mixedDir).2 = some "bad.surl" ∧
    (listAuth mixedDir).1 = [("good", .str "staging")] :=
  ⟨rfl, rfl⟩

/-- C8 amended: the listing enumerates exactly the suffixed files and a
file whose text fails to parse as JSON is silently skipped; the skip is
limited to parse failures: whenever every parsed suffixed file carries a
store field, the listing finishes without crash and prints exactly the
entry of each enumerable file, in directory order. -/
theorem listing_skips_unparsable (fs : FS) (h : noStorelessFile fs = true) :
    listAuth fs = (fs.filterMap listedEntry, none) := by
  induction fs with
  | nil => rfl
  | cons e rest ih =>
      obtain ⟨fn, content⟩ := e
      rw [noStorelessFile, List.all_cons, Bool.and_eq_true] at h
      obtain ⟨h1, h2⟩ := h
      have ih2 := ih (by rw [noStorelessFile]; exact h2)
      by_cases hs : strEndsWith fn ".surl" = true
      · rcases content with _ | j
        · simp [listAuth, hs, listedEntry, ih2, List.filterMap_cons]
        · rcases hst : j.get? "store" with _ | env
          · exfalso
            simp [hs, hst] at h1
          · simp [listAuth, hs, hst, ih2, listedEntry, List.filterMap_cons]
      · have hs' : strEndsWith fn ".surl" = false := by simpa using hs
        simp [listAuth, hs', listedEntry, ih2, List.filterMap_cons]

theorem listing_skips_unparsable_witness :
    noStorelessFile skipDir = true ∧
    listAuth skipDir = ([("good", .str "staging")], none) :=
  ⟨rfl, listing_skips_unparsable skipDir rfl⟩

end Surl
